import Mathlib

/-!
Shallow embedding of `upload_icons.py`: a utility that downloads LaMetric
icons and uploads them to an AWTRIX device.  Pure logic (address validation,
name sanitization, multipart body construction, control flow) is translated
directly; network I/O and Python's `int()` parser are modelled as oracle
parameters.  Strings are modelled at the `List Char` level where the Python
code works on `str`, and raw bytes as `List Nat`.
-/

set_option maxRecDepth 10000

/-! ## Definitions -/

/-- ASCII decimal digit: models the regex class `\d` on the ASCII range
(the inputs the claims concern are ASCII). -/
def isDigitCh (c : Char) : Bool := decide ('0' ≤ c) && decide (c ≤ '9')

/-- ASCII alphanumeric: models the regex class `[a-zA-Z0-9]`. -/
def isAlnumCh (c : Char) : Bool :=
  (decide ('a' ≤ c) && decide (c ≤ 'z')) ||
  (decide ('A' ≤ c) && decide (c ≤ 'Z')) ||
  (decide ('0' ≤ c) && decide (c ≤ '9'))

/-- Character permitted in the interior of a hostname label: models the
regex class `[a-zA-Z0-9\-]`. -/
def isLabelMidCh (c : Char) : Bool := isAlnumCh c || c = '-'

/-- Split a character list at every dot, like Python `address.split('.')`:
`"".split('.') = ['']`, separators are not kept, empty groups are kept. -/
def splitDots : List Char → List (List Char)
  | [] => [[]]
  | c :: rest =>
    match splitDots rest with
    | [] => [[c]]
    | g :: gs => if c = '.' then [] :: g :: gs else (c :: g) :: gs

/-- Decimal value of a digit string, most significant digit first. -/
def digitsVal (l : List Char) : Nat :=
  l.foldl (fun a c => a * 10 + (c.toNat - 48)) 0

/-- Models Python `int(s)` on the nonnegative inputs reachable in
`validate_ip_or_hostname` (digit groups, possibly with surrounding
whitespace from a regex `$`-tolerated trailing newline): strip whitespace,
then require a nonempty all-digit string.  `none` models `ValueError`. -/
def pyIntNat? (g : List Char) : Option Nat :=
  let t := ((g.dropWhile Char.isWhitespace).reverse.dropWhile Char.isWhitespace).reverse
  if t ≠ [] && t.all isDigitCh then some (digitsVal t) else none

/-- The core of the regex `^(\d{1,3}\.){3}\d{1,3}$`: one group of 1-3
digits. -/
def group13 (g : List Char) : Bool :=
  decide (g ≠ []) && decide (g.length ≤ 3) && g.all isDigitCh

/-- Full-string match of `(\d{1,3}\.){3}\d{1,3}`: exactly four dot-separated
groups of one to three digits. -/
def ipv4Core (l : List Char) : Bool :=
  match splitDots l with
  | [a, b, c, d] => group13 a && group13 b && group13 c && group13 d
  | _ => false

/-- Full-string match of one hostname label
`[a-zA-Z0-9]([a-zA-Z0-9\-]{0,61}[a-zA-Z0-9])?`: a leading alphanumeric
character, optionally followed by up to 61 interior characters and a final
alphanumeric character. -/
def labelOK : List Char → Bool
  | [] => false
  | [c] => isAlnumCh c
  | c :: rest =>
    isAlnumCh c && decide (rest.length ≤ 62) && rest.dropLast.all isLabelMidCh &&
    isAlnumCh (rest.getLastD 'a')

/-- Full-string match of the hostname regex
`^label(\.label)*$|^[a-zA-Z0-9]$` used by the source (the second
alternative readmits a bare single alphanumeric character). -/
def hostnameCore (l : List Char) : Bool :=
  (splitDots l).all labelOK ||
  (match l with
   | [c] => isAlnumCh c
   | _ => false)

/-- Python `re.match(p + '$', s)`: the pattern must cover the whole string,
except that `$` also matches just before one trailing newline. -/
def pyMatchFull (p : List Char → Bool) (l : List Char) : Bool :=
  p l || (decide (l.getLast? = some '\n') && p l.dropLast)

/-- The octet check of the IPv4 branch: split the address at dots and
require each group to parse with `int` to a value in `[0, 255]`
(a parse failure models the caught `ValueError`, yielding `false`). -/
def octetCheck (l : List Char) : Bool :=
  (splitDots l).all (fun g =>
    match pyIntNat? g with
    | some n => decide (n ≤ 255)
    | none => false)

/-- `validate_ip_or_hostname` from the source: empty is invalid;
`localhost` and `127.0.0.1` are valid; a string matching the IPv4 shape
regex is valid iff every octet is at most 255; otherwise the hostname
regex decides. -/
def validate_ip_or_hostname (address : String) : Bool :=
  if address = "" then false
  else if address = "localhost" || address = "127.0.0.1" then true
  else if pyMatchFull ipv4Core address.toList then octetCheck address.toList
  else pyMatchFull hostnameCore address.toList

/-- Character kept as-is by `sanitize_icon_name`: the complement of the
regex class `[^a-zA-Z0-9\-_]`. -/
def isSafeChar (c : Char) : Bool := isAlnumCh c || c = '-' || c = '_'

/-- Python `s.strip('_')` on a character list: drop leading and trailing
underscores. -/
def stripUnderscores (l : List Char) : List Char :=
  ((l.dropWhile (fun c => c = '_')).reverse.dropWhile (fun c => c = '_')).reverse

/-- The `re.sub(r'[^a-zA-Z0-9\-_]', '_', name)` step of
`sanitize_icon_name`: replace every unsafe character by an underscore. -/
def sanitizeMapped (l : List Char) : List Char :=
  l.map (fun c => if isSafeChar c then c else '_')

/-- `sanitize_icon_name` on a character list: replace every unsafe
character by an underscore, strip leading/trailing underscores, and fall
back to `"icon"` when the result is empty. -/
def sanitizeList (l : List Char) : List Char :=
  if stripUnderscores (sanitizeMapped l) = [] then "icon".toList
  else stripUnderscores (sanitizeMapped l)

/-- `sanitize_icon_name` from the source. -/
def sanitize_icon_name (s : String) : String :=
  (sanitizeList s.toList).asString

/-- Outcome of one `urllib.request.urlopen` GET as seen by
`download_icon`: an `HTTPError` (caught, try the next format), a
lower-level `URLError`/transport failure (uncaught, propagates), or a
successful response with its body bytes. -/
inductive FetchOutcome where
  | httpError
  | transportError
  | ok (data : List Nat)
deriving DecidableEq, Repr

/-- Error result of `download_icon`: the final `ValueError` carrying the
icon id when every format misses, or a propagated transport failure. -/
inductive DownloadError where
  | notFound (icon_id : Int)
  | transport
deriving DecidableEq, Repr

/-- The `for ext in ['gif', 'png']` loop body of `download_icon` over the
remaining formats: an `HTTPError` or an empty body moves to the next
format, a transport failure propagates, a non-empty body returns
immediately with its format. -/
def downloadLoop (net : Int → String → FetchOutcome) (icon_id : Int) :
    List String → Except DownloadError (List Nat × String)
  | [] => .error (.notFound icon_id)
  | ext :: rest =>
    match net icon_id ext with
    | .httpError => downloadLoop net icon_id rest
    | .transportError => .error .transport
    | .ok data => if data = [] then downloadLoop net icon_id rest else .ok (data, ext)

/-- `download_icon` from the source: try `gif` then `png` against the
catalog, with the network modelled by the oracle `net` keyed by icon id
and extension. -/
def download_icon (net : Int → String → FetchOutcome) (icon_id : Int) :
    Except DownloadError (List Nat × String) :=
  downloadLoop net icon_id ["gif", "png"]

/-- UTF-8 encoding of one character as byte values, as Python
`str.encode()` produces. -/
def utf8EncodeChar (c : Char) : List Nat :=
  let n := c.toNat
  if n < 128 then [n]
  else if n < 2048 then [192 + n / 64, 128 + n % 64]
  else if n < 65536 then [224 + n / 4096, 128 + (n / 64) % 64, 128 + n % 64]
  else [240 + n / 262144, 128 + (n / 4096) % 64, 128 + (n / 64) % 64, 128 + n % 64]

/-- UTF-8 encoding of a string as byte values (Python `s.encode()`). -/
def encodeStr (s : String) : List Nat :=
  (s.toList.map utf8EncodeChar).flatten

/-- The carriage-return/line-feed pair joining multipart body lines. -/
def crlf : List Nat := [13, 10]

/-- The boundary string `----WebKitFormBoundary` ++ `uuid4().hex`; the
random hex token is an oracle parameter. -/
def mkBoundary (bhex : String) : String := "----WebKitFormBoundary" ++ bhex

/-- The `body` list of `upload_icon_to_awtrix` before joining: opening
boundary line, Content-Disposition header, Content-Type header, blank
line, raw icon bytes, closing boundary, trailing empty piece. -/
def bodyPieces (boundary safeName ext : String) (data : List Nat) : List (List Nat) :=
  [ encodeStr ("--" ++ boundary),
    encodeStr ("Content-Disposition: form-data; name=\"data\"; filename=\"/ICONS/" ++
      safeName ++ "." ++ ext ++ "\""),
    encodeStr ("Content-Type: image/" ++ ext),
    [],
    data,
    encodeStr ("--" ++ boundary ++ "--"),
    [] ]

/-- `body_bytes = b'\r\n'.join(body)` from the source. -/
def bodyBytes (boundary safeName ext : String) (data : List Nat) : List Nat :=
  List.intercalate crlf (bodyPieces boundary safeName ext data)

/-- The HTTP request assembled by `upload_icon_to_awtrix`. -/
structure Request where
  url : String
  method : String
  contentType : String
  contentLength : Nat
  body : List Nat
deriving DecidableEq, Repr

/-- The `urllib.request.Request` built by `upload_icon_to_awtrix`:
POST to `http://<device_ip>/edit` with the multipart body over the
sanitized icon name. -/
def buildRequest (device_ip icon_name : String) (icon_data : List Nat)
    (file_ext bhex : String) : Request :=
  let safe_icon_name := sanitize_icon_name icon_name
  let boundary := mkBoundary bhex
  let body_bytes := bodyBytes boundary safe_icon_name file_ext icon_data
  { url := "http://" ++ device_ip ++ "/edit"
    method := "POST"
    contentType := "multipart/form-data; boundary=" ++ boundary
    contentLength := body_bytes.length
    body := body_bytes }

/-- Outcome of the upload POST as seen by `upload_icon_to_awtrix`: a
response with its status code, or a raised `URLError`/`OSError`
(which includes `HTTPError` for non-2xx statuses). -/
inductive UploadOutcome where
  | status (code : Nat)
  | netError
deriving DecidableEq, Repr

/-- `upload_icon_to_awtrix` from the source: `true` on a response with
status 200 or 201, `false` on any other status and on any caught network
exception.  The function is total: exceptions are modelled in
`UploadOutcome`, so no raise escapes. -/
def upload_icon_to_awtrix (upl : Request → UploadOutcome)
    (device_ip icon_name : String) (icon_data : List Nat)
    (file_ext bhex : String) : Bool :=
  match upl (buildRequest device_ip icon_name icon_data file_ext bhex) with
  | .status code => if code = 200 || code = 201 then true else false
  | .netError => false

/-- `process_icon` from the source: download, then upload; any download
error (not-found or transport) is caught and yields `false`. -/
def process_icon (net : Int → String → FetchOutcome) (upl : Request → UploadOutcome)
    (device_ip : String) (bhex : String) (icon_name : String) (icon_id : Int) : Bool :=
  match download_icon net icon_id with
  | .error _ => false
  | .ok (icon_data, file_ext) =>
    upload_icon_to_awtrix upl device_ip icon_name icon_data file_ext bhex

/-- The per-icon loop of `main`: process each requested icon in order,
recording one boolean result per request. -/
def processAll (net : Int → String → FetchOutcome) (upl : Request → UploadOutcome)
    (device_ip : String) (bhex : String) (reqs : List (String × Int)) : List Bool :=
  reqs.map (fun r => process_icon net upl device_ip bhex r.1 r.2)

/-- `success_count` of `main`: how many results are `true`. -/
def successCount (results : List Bool) : Nat :=
  (results.filter (fun b => b)).length

/-- `DEFAULT_ICONS` from the source, in insertion order. -/
def DEFAULT_ICONS : List (String × Int) :=
  [("stock-up", 40160), ("stock-down", 40176), ("stock-neutral", 40161)]

/-- Python dict insertion on an insertion-ordered association list: an
existing key is updated in place, a new key is appended. -/
def dictUpdate (d : List (String × Int)) (k : String) (v : Int) : List (String × Int) :=
  if d.any (fun p => p.1 = k) then d.map (fun p => if p.1 = k then (p.1, v) else p)
  else d ++ [(k, v)]

/-- The `--icon` validation loop of `main`: parse each id with `int()`
(modelled by the oracle `parse`; `none` models `ValueError`), reject
non-positive ids, and fold the pairs into the icon dict.  `none` models
the `return 1` paths. -/
def buildIcons (parse : String → Option Int) :
    List (String × String) → List (String × Int) → Option (List (String × Int))
  | [], acc => some acc
  | (name, idStr) :: rest, acc =>
    match parse idStr with
    | none => none
    | some v => if v ≤ 0 then none else buildIcons parse rest (dictUpdate acc name v)

/-- Parsed command-line arguments of `main`. -/
structure Args where
  device_ip : Option String
  default_icons : Bool
  icon : List (String × String)
  list_default : Bool

/-- Python `input(...).strip()`: drop whitespace from both ends. -/
def pyStrip (s : String) : String :=
  (((s.toList.dropWhile Char.isWhitespace).reverse.dropWhile Char.isWhitespace).reverse).asString

/-- The device address `main` settles on: the positional argument if it is
present and non-empty (Python truthiness), otherwise the stripped
interactive prompt reply, `none` when that too is empty. -/
def resolveDevice (args : Args) (prompt : String) : Option String :=
  let dev0 := args.device_ip.getD ""
  if dev0 = "" then
    let d := pyStrip prompt
    if d = "" then none else some d
  else some dev0

/-- The per-icon loop and summary of `main`: process every icon, then
exit 0 iff the success count equals the number of icons. -/
def mainCore (device_ip : String) (icons : List (String × Int))
    (net : Int → String → FetchOutcome) (upl : Request → UploadOutcome)
    (bhex : String) : Nat × List Bool :=
  (if successCount (processAll net upl device_ip bhex icons) = icons.length then 0 else 1,
   processAll net upl device_ip bhex icons)

/-- `main` after the device address is settled: validate it, build the
icon dict, reject an empty dict, then run the per-icon loop. -/
def mainWithDevice (device_ip : String) (args : Args) (parse : String → Option Int)
    (net : Int → String → FetchOutcome) (upl : Request → UploadOutcome)
    (bhex : String) : Nat × List Bool :=
  if validate_ip_or_hostname device_ip = false then (1, [])
  else
    match buildIcons parse args.icon (if args.default_icons then DEFAULT_ICONS else []) with
    | none => (1, [])
    | some icons =>
      if icons = [] then (1, []) else mainCore device_ip icons net upl bhex

/-- `main` from the source, returning the exit code together with the list
of per-icon results (empty when no per-icon attempt was made).  Network,
prompt, `int()` parsing and the multipart boundary token are oracle
parameters. -/
def mainRun (args : Args) (prompt : String) (parse : String → Option Int)
    (net : Int → String → FetchOutcome) (upl : Request → UploadOutcome)
    (bhex : String) : Nat × List Bool :=
  if args.list_default then (0, [])
  else
    match resolveDevice args prompt with
    | none => (1, [])
    | some device_ip => mainWithDevice device_ip args parse net upl bhex

/-- The character set named by the specification:
`{A-Z, a-z, 0-9, hyphen, underscore}`. -/
def specKeepChar (c : Char) : Bool :=
  (decide ('A' ≤ c) && decide (c ≤ 'Z')) || (decide ('a' ≤ c) && decide (c ≤ 'z')) ||
  (decide ('0' ≤ c) && decide (c ≤ '9')) || c = '-' || c = '_'

/-- Reference definition of `sanitize` following the specification's words:
replace each character outside `{A-Z, a-z, 0-9, hyphen, underscore}` with an
underscore, strip leading and trailing underscores from the result, and
return the fixed fallback token `"icon"` if that result is empty. -/
def sanitizeRef (s : String) : String :=
  let replaced := s.toList.map (fun c => if specKeepChar c then c else '_')
  let stripped :=
    ((replaced.dropWhile (fun c => c = '_')).reverse.dropWhile (fun c => c = '_')).reverse
  if stripped = [] then "icon" else stripped.asString

/-- The shape named by claim C2: four dot-separated non-empty groups of
decimal digits (with no bound on group length). -/
def fourDigitGroups (l : List Char) : Bool :=
  match splitDots l with
  | [a, b, c, d] =>
    (decide (a ≠ []) && a.all isDigitCh) && (decide (b ≠ []) && b.all isDigitCh) &&
    (decide (c ≠ []) && c.all isDigitCh) && (decide (d ≠ []) && d.all isDigitCh)
  | _ => false

/-- One label of the hostname grammar named by claim C8: 1-63 characters,
alphanumeric with hyphens permitted, no leading or trailing hyphen. -/
def labelGrammar (g : List Char) : Bool :=
  decide (1 ≤ g.length) && decide (g.length ≤ 63) && g.all isLabelMidCh &&
  decide (g.headD '-' ≠ '-') && decide (g.getLastD '-' ≠ '-')

/-- The hostname grammar named by claim C8: one or more dot-separated
labels, each satisfying `labelGrammar`. -/
def hostGrammar (s : String) : Bool :=
  (splitDots s.toList).all labelGrammar

/-- Oracle for the C3 witness: only the gif format resolves. -/
def netC3gif : Int → String → FetchOutcome :=
  fun _ ext => if ext = "gif" then .ok [1] else .httpError

/-- Oracle for the C3 witness: only the png format resolves. -/
def netC3png : Int → String → FetchOutcome :=
  fun _ ext => if ext = "png" then .ok [2] else .httpError

/-- Oracle for the C3 witness: transport failure on the first attempt. -/
def netC3fail1 : Int → String → FetchOutcome := fun _ _ => .transportError

/-- Oracle for the C3 witness: miss, then transport failure. -/
def netC3fail2 : Int → String → FetchOutcome :=
  fun _ ext => if ext = "gif" then .httpError else .transportError

/-- Oracle for the C3 witness: every format misses. -/
def netC3miss : Int → String → FetchOutcome := fun _ _ => .httpError

/-- Oracle for the C10 witness: empty gif body, non-empty png body. -/
def netC10empty : Int → String → FetchOutcome :=
  fun _ ext => if ext = "gif" then .ok [] else .ok [3]

/-- Oracle for the C10 witness: both bodies empty. -/
def netC10allEmpty : Int → String → FetchOutcome := fun _ _ => .ok []

/-- The single multipart/form-data file part named by the specification:
opening boundary line, a Content-Disposition header carrying the field
name and filename, a Content-Type header, a blank line, the raw bytes,
and the closing boundary line, with CRLF line endings. -/
def multipartSingleFilePart (boundary fieldName filename ctype : String)
    (data : List Nat) : List Nat :=
  encodeStr ("--" ++ boundary) ++ crlf ++
  encodeStr ("Content-Disposition: form-data; name=\"" ++ fieldName ++
    "\"; filename=\"" ++ filename ++ "\"") ++ crlf ++
  encodeStr ("Content-Type: " ++ ctype) ++ crlf ++ crlf ++
  data ++ crlf ++
  encodeStr ("--" ++ boundary ++ "--") ++ crlf

/-- Oracle for the C6 example: icon id 2 misses in both formats, every
other id resolves under gif. -/
def netC6 : Int → String → FetchOutcome :=
  fun icon_id _ => if icon_id = 2 then .httpError else .ok [9]

/-- Oracle for the C6 example: the device accepts every upload. -/
def uplC6 : Request → UploadOutcome := fun _ => .status 200

/-- Arguments for the C7 witness: a valid device, one custom icon. -/
def argsC7 : Args :=
  { device_ip := some "192.168.1.100", default_icons := false,
    icon := [("x", "5")], list_default := false }

/-- Parse oracle for the C7 witness. -/
def parseC7 : String → Option Int := fun s => if s = "5" then some 5 else none

/-- Network oracle for the C7 witness: every fetch succeeds. -/
def netC7 : Int → String → FetchOutcome := fun _ _ => .ok [1]

/-- Upload oracle for the C7 witness: the device accepts every upload. -/
def uplC7 : Request → UploadOutcome := fun _ => .status 200

/-! ## Theorems -/

/-- Dropping while `p` is the identity when the head fails `p`. -/
theorem dropWhile_eq_self_of_head {p : Char → Bool} {l : List Char}
    (h : ∀ a, l.head? = some a → p a = false) : l.dropWhile p = l := by
  cases l with
  | nil => rfl
  | cons a t =>
    apply List.dropWhile_cons_of_neg
    simp [h a rfl]

/-- The head of `dropWhile p l` fails `p`. -/
theorem head?_dropWhile_false {p : Char → Bool} {l : List Char} {a : Char}
    (ha : (l.dropWhile p).head? = some a) : p a = false := by
  have hne : l.dropWhile p ≠ [] := by
    intro h
    rw [h] at ha
    exact Option.noConfusion ha
  have hh := List.head?_eq_head hne
  rw [hh, Option.some_inj] at ha
  exact ha ▸ List.head_dropWhile_not p l hne

/-- Every member of `stripUnderscores l` is a member of `l`. -/
theorem mem_stripUnderscores {c : Char} {l : List Char}
    (h : c ∈ stripUnderscores l) : c ∈ l := by
  unfold stripUnderscores at h
  rw [List.mem_reverse] at h
  have h2 := List.dropWhile_subset (l := (l.dropWhile (fun c => c = '_')).reverse)
    (fun c => c = '_') h
  rw [List.mem_reverse] at h2
  exact List.dropWhile_subset (fun c => c = '_') h2

/-- `stripUnderscores` is idempotent. -/
theorem stripUnderscores_idem (l : List Char) :
    stripUnderscores (stripUnderscores l) = stripUnderscores l := by
  unfold stripUnderscores
  have hx1 : ((l.dropWhile (fun c => c = '_')).reverse.dropWhile
      (fun c => c = '_')).reverse.dropWhile (fun c => c = '_') =
      ((l.dropWhile (fun c => c = '_')).reverse.dropWhile (fun c => c = '_')).reverse := by
    apply dropWhile_eq_self_of_head
    intro a ha
    rw [List.head?_reverse] at ha
    obtain ⟨t, ht⟩ := List.dropWhile_suffix (l := (l.dropWhile (fun c => c = '_')).reverse)
      (fun c => c = '_')
    have hlast : (l.dropWhile (fun c => c = '_')).reverse.getLast? = some a := by
      rw [← ht, List.getLast?_append, ha]
      rfl
    rw [List.getLast?_reverse] at hlast
    exact head?_dropWhile_false hlast
  rw [hx1, List.reverse_reverse]
  congr 1
  apply dropWhile_eq_self_of_head
  intro a ha
  exact head?_dropWhile_false ha

/-- Every character of `sanitizeList l` is in the safe class. -/
theorem sanitizeList_all_safe (l : List Char) :
    (sanitizeList l).all isSafeChar = true := by
  unfold sanitizeList
  by_cases h : stripUnderscores (sanitizeMapped l) = []
  · rw [if_pos h]
    decide
  · rw [if_neg h]
    rw [List.all_eq_true]
    intro c hc
    have hm := mem_stripUnderscores hc
    unfold sanitizeMapped at hm
    rw [List.mem_map] at hm
    obtain ⟨a, _, ha⟩ := hm
    by_cases hs : isSafeChar a = true
    · rw [if_pos hs] at ha
      rw [← ha]
      exact hs
    · rw [if_neg hs] at ha
      rw [← ha]
      decide

/-- `sanitizeList` never returns the empty list. -/
theorem sanitizeList_ne_nil (l : List Char) : sanitizeList l ≠ [] := by
  unfold sanitizeList
  by_cases h : stripUnderscores (sanitizeMapped l) = []
  · rw [if_pos h]
    decide
  · rw [if_neg h]
    exact h

/-- `stripUnderscores` leaves a `sanitizeList` result unchanged. -/
theorem stripUnderscores_sanitizeList (l : List Char) :
    stripUnderscores (sanitizeList l) = sanitizeList l := by
  unfold sanitizeList
  by_cases h : stripUnderscores (sanitizeMapped l) = []
  · rw [if_pos h]
    decide
  · rw [if_neg h]
    exact stripUnderscores_idem (sanitizeMapped l)

/-- Replacing unsafe characters fixes a list that is already safe. -/
theorem sanitizeMapped_of_safe {y : List Char} (hall : y.all isSafeChar = true) :
    sanitizeMapped y = y := by
  unfold sanitizeMapped
  have := List.map_congr_left (l := y)
    (f := fun c => if isSafeChar c then c else '_') (g := id) ?_
  · rw [this, List.map_id]
  · intro a ha
    show (if isSafeChar a then a else '_') = id a
    rw [if_pos (List.all_eq_true.1 hall a ha)]
    rfl

/-- `sanitizeList` fixes any of its own outputs. -/
theorem sanitizeList_fixed (l : List Char) :
    sanitizeList (sanitizeList l) = sanitizeList l := by
  show (if stripUnderscores (sanitizeMapped (sanitizeList l)) = [] then "icon".toList
    else stripUnderscores (sanitizeMapped (sanitizeList l))) = sanitizeList l
  rw [sanitizeMapped_of_safe (sanitizeList_all_safe l), stripUnderscores_sanitizeList,
    if_neg (sanitizeList_ne_nil l)]

/-- The spec's character set coincides with the code's safe set. -/
theorem specKeepChar_eq_isSafeChar (c : Char) : specKeepChar c = isSafeChar c := by
  unfold specKeepChar isSafeChar isAlnumCh
  rw [Bool.eq_iff_iff]
  simp only [Bool.or_eq_true, Bool.and_eq_true, decide_eq_true_eq]
  tauto

/-- `sanitize_icon_name` agrees with the spec's reference definition. -/
theorem sanitize_eq_ref (s : String) : sanitize_icon_name s = sanitizeRef s := by
  unfold sanitize_icon_name sanitizeRef sanitizeList sanitizeMapped stripUnderscores
  have hmap : s.toList.map (fun c => if specKeepChar c then c else '_') =
      s.toList.map (fun c => if isSafeChar c then c else '_') := by
    apply List.map_congr_left
    intro a _
    rw [specKeepChar_eq_isSafeChar]
  rw [hmap]
  by_cases h : ((s.toList.map (fun c => if isSafeChar c then c else '_')).dropWhile
      (fun c => c = '_')).reverse.dropWhile (fun c => c = '_') = []
  · simp only [h, List.reverse_nil, if_pos]
    rfl
  · have h2 : (((s.toList.map (fun c => if isSafeChar c then c else '_')).dropWhile
        (fun c => c = '_')).reverse.dropWhile (fun c => c = '_')).reverse ≠ [] := by
      intro hc
      apply h
      rw [← List.reverse_reverse (((s.toList.map
        (fun c => if isSafeChar c then c else '_')).dropWhile
        (fun c => c = '_')).reverse.dropWhile (fun c => c = '_')), hc]
      rfl
    rw [if_neg h2, if_neg h2]

/-- C1: for every input string `s`, `sanitize_icon_name s` equals the
reference definition (replace each character outside
`{A-Z, a-z, 0-9, hyphen, underscore}` with an underscore, strip leading and
trailing underscores, fall back to the fixed token `"icon"` when empty);
consequently the output always consists of characters matching
`[A-Za-z0-9_-]` and is non-empty; and the three concrete examples of the
specification hold. -/
theorem C1_sanitize_matches_reference :
    (∀ s : String, sanitize_icon_name s = sanitizeRef s ∧
      (sanitize_icon_name s).toList.all specKeepChar = true ∧
      sanitize_icon_name s ≠ "") ∧
    sanitize_icon_name "my icon!@#" = "my_icon" ∧
    sanitize_icon_name "___" = "icon" ∧
    sanitize_icon_name "valid-Name_1" = "valid-Name_1" := by
  refine ⟨fun s => ⟨sanitize_eq_ref s, ?_, ?_⟩, by decide, by decide, by decide⟩
  · show (sanitizeList s.toList).all specKeepChar = true
    have h := sanitizeList_all_safe s.toList
    rw [List.all_eq_true] at h ⊢
    intro c hc
    rw [specKeepChar_eq_isSafeChar]
    exact h c hc
  · intro h
    have h2 : sanitizeList s.toList = [] := congrArg String.toList h
    exact sanitizeList_ne_nil s.toList h2

/-- C9: `sanitize_icon_name` is idempotent. -/
theorem C9_sanitize_idempotent (s : String) :
    sanitize_icon_name (sanitize_icon_name s) = sanitize_icon_name s := by
  show (sanitizeList (sanitizeList s.toList)).asString = (sanitizeList s.toList).asString
  rw [sanitizeList_fixed]

/-- A decimal digit is not whitespace. -/
theorem not_whitespace_of_digit {c : Char} (h : isDigitCh c = true) :
    c.isWhitespace = false := by
  unfold isDigitCh at h
  rw [Bool.and_eq_true, decide_eq_true_eq, decide_eq_true_eq] at h
  unfold Char.isWhitespace
  have h1 : c ≠ ' ' := by
    rintro rfl
    exact absurd h.1 (by decide)
  have h2 : c ≠ '\t' := by
    rintro rfl
    exact absurd h.1 (by decide)
  have h3 : c ≠ '\r' := by
    rintro rfl
    exact absurd h.1 (by decide)
  have h4 : c ≠ '\n' := by
    rintro rfl
    exact absurd h.1 (by decide)
  simp [h1, h2, h3, h4]

/-- A decimal digit is not the newline character. -/
theorem digit_ne_newline {c : Char} (h : isDigitCh c = true) : c ≠ '\n' := by
  rintro rfl
  exact absurd h (by decide)

/-- `splitDots` always yields at least one group. -/
theorem splitDots_ne_nil (l : List Char) : splitDots l ≠ [] := by
  cases l with
  | nil => exact fun h => List.noConfusion h
  | cons c rest =>
    show (match splitDots rest with
      | [] => [[c]]
      | g :: gs => if c = '.' then [] :: g :: gs else (c :: g) :: gs) ≠ []
    cases splitDots rest with
    | nil => exact fun h => List.noConfusion h
    | cons g gs =>
      show (if c = '.' then [] :: g :: gs else (c :: g) :: gs) ≠ []
      by_cases h : c = '.'
      · rw [if_pos h]
        exact fun h => List.noConfusion h
      · rw [if_neg h]
        exact fun h => List.noConfusion h

/-- Unfolding `splitDots` on a leading dot. -/
theorem splitDots_cons_dot {rest : List Char} {g : List Char} {gs : List (List Char)}
    (hsp : splitDots rest = g :: gs) : splitDots ('.' :: rest) = [] :: g :: gs := by
  show (match splitDots rest with
    | [] => [['.']]
    | g :: gs => if '.' = '.' then [] :: g :: gs else ('.' :: g) :: gs) = [] :: g :: gs
  rw [hsp]
  rfl

/-- Unfolding `splitDots` on a leading non-dot character. -/
theorem splitDots_cons_nodot {c : Char} (hc : c ≠ '.') {rest : List Char}
    {g : List Char} {gs : List (List Char)} (hsp : splitDots rest = g :: gs) :
    splitDots (c :: rest) = (c :: g) :: gs := by
  show (match splitDots rest with
    | [] => [[c]]
    | g :: gs => if c = '.' then [] :: g :: gs else (c :: g) :: gs) = (c :: g) :: gs
  rw [hsp]
  show (if c = '.' then [] :: g :: gs else (c :: g) :: gs) = (c :: g) :: gs
  rw [if_neg hc]

/-- Every character of `l` is a dot or belongs to one of the groups of
`splitDots l`. -/
theorem mem_splitDots {c : Char} {l : List Char} (h : c ∈ l) :
    c = '.' ∨ ∃ g ∈ splitDots l, c ∈ g := by
  induction l with
  | nil => cases h
  | cons a rest ih =>
    rcases hsp : splitDots rest with _ | ⟨g, gs⟩
    · exact absurd hsp (splitDots_ne_nil rest)
    · rcases List.mem_cons.1 h with rfl | hmem
      · by_cases hd : c = '.'
        · exact Or.inl hd
        · refine Or.inr ⟨c :: g, ?_, List.mem_cons_self c g⟩
          rw [splitDots_cons_nodot hd hsp]
          exact List.mem_cons_self _ _
      · rcases ih hmem with hdot | ⟨g2, hg2, hcg2⟩
        · exact Or.inl hdot
        · rw [hsp] at hg2
          by_cases hd : a = '.'
          · refine Or.inr ⟨g2, ?_, hcg2⟩
            subst hd
            rw [splitDots_cons_dot hsp]
            exact List.mem_cons_of_mem _ hg2
          · rcases List.mem_cons.1 hg2 with rfl | hg2tail
            · refine Or.inr ⟨a :: g2, ?_, List.mem_cons_of_mem _ hcg2⟩
              rw [splitDots_cons_nodot hd hsp]
              exact List.mem_cons_self _ _
            · refine Or.inr ⟨g2, ?_, hcg2⟩
              rw [splitDots_cons_nodot hd hsp]
              exact List.mem_cons_of_mem _ hg2tail

/-- When the last character is not a newline, the Python `$` tolerance is
irrelevant. -/
theorem pyMatchFull_of_no_newline {p : List Char → Bool} {l : List Char}
    (h : l.getLast? ≠ some '\n') : pyMatchFull p l = p l := by
  unfold pyMatchFull
  rw [decide_eq_false h]
  rw [Bool.false_and, Bool.or_false]

/-- Every character of a string matching the IPv4 shape is a dot or a
digit. -/
theorem ipv4Core_chars {l : List Char} (h : ipv4Core l = true) :
    ∀ x ∈ l, x = '.' ∨ isDigitCh x = true := by
  intro x hx
  rcases mem_splitDots hx with hdot | ⟨g, hg, hxg⟩
  · exact Or.inl hdot
  · right
    unfold ipv4Core at h
    split at h
    next a b c d heq =>
      rw [heq] at hg
      simp only [Bool.and_eq_true] at h
      have hgr : group13 g = true := by
        rcases List.mem_cons.1 hg with rfl | hg2
        · exact h.1.1.1
        rcases List.mem_cons.1 hg2 with rfl | hg3
        · exact h.1.1.2
        rcases List.mem_cons.1 hg3 with rfl | hg4
        · exact h.1.2
        rcases List.mem_cons.1 hg4 with rfl | hg5
        · exact h.2
        · cases hg5
      unfold group13 at hgr
      rw [Bool.and_eq_true, Bool.and_eq_true] at hgr
      exact List.all_eq_true.1 hgr.2 x hxg
    next => exact absurd h (by decide)

/-- `pyIntNat?` on a nonempty all-digit group returns its decimal value. -/
theorem pyIntNat?_digits {g : List Char} (hne : g ≠ []) (hall : g.all isDigitCh = true) :
    pyIntNat? g = some (digitsVal g) := by
  have hdrop1 : g.dropWhile Char.isWhitespace = g := by
    apply dropWhile_eq_self_of_head
    intro a ha
    obtain ⟨ys, hys⟩ := List.head?_eq_some_iff.1 ha
    apply not_whitespace_of_digit
    exact List.all_eq_true.1 hall a (hys ▸ List.mem_cons_self a ys)
  have hdrop2 : g.reverse.dropWhile Char.isWhitespace = g.reverse := by
    apply dropWhile_eq_self_of_head
    intro a ha
    obtain ⟨ys, hys⟩ := List.head?_eq_some_iff.1 ha
    apply not_whitespace_of_digit
    have : a ∈ g.reverse := hys ▸ List.mem_cons_self a ys
    exact List.all_eq_true.1 hall a (List.mem_reverse.1 this)
  unfold pyIntNat?
  rw [hdrop1, hdrop2, List.reverse_reverse]
  rw [if_pos]
  rw [Bool.and_eq_true, decide_eq_true_eq]
  exact ⟨hne, hall⟩

/-- Each group of a string matching the IPv4 shape is 1-3 digits. -/
theorem ipv4Core_groups {l : List Char} (h : ipv4Core l = true) :
    ∀ g ∈ splitDots l, group13 g = true := by
  intro g hg
  unfold ipv4Core at h
  split at h
  next a b c d heq =>
    rw [heq] at hg
    simp only [Bool.and_eq_true] at h
    rcases List.mem_cons.1 hg with rfl | hg2
    · exact h.1.1.1
    rcases List.mem_cons.1 hg2 with rfl | hg3
    · exact h.1.1.2
    rcases List.mem_cons.1 hg3 with rfl | hg4
    · exact h.1.2
    rcases List.mem_cons.1 hg4 with rfl | hg5
    · exact h.2
    · cases hg5
  next => exact absurd h (by decide)

/-- On an IPv4-shaped string, the octet check is exactly: every group's
decimal value is at most 255. -/
theorem octetCheck_of_ipv4 {l : List Char} (h : ipv4Core l = true) :
    octetCheck l = (splitDots l).all (fun g => decide (digitsVal g ≤ 255)) := by
  unfold octetCheck
  rw [Bool.eq_iff_iff, List.all_eq_true, List.all_eq_true]
  constructor
  · intro hall g hg
    have hx := hall g hg
    have hgr := ipv4Core_groups h g hg
    unfold group13 at hgr
    rw [Bool.and_eq_true, Bool.and_eq_true, decide_eq_true_eq] at hgr
    rw [pyIntNat?_digits hgr.1.1 hgr.2] at hx
    exact hx
  · intro hall g hg
    have hx := hall g hg
    have hgr := ipv4Core_groups h g hg
    unfold group13 at hgr
    rw [Bool.and_eq_true, Bool.and_eq_true, decide_eq_true_eq] at hgr
    show (match pyIntNat? g with
      | some n => decide (n ≤ 255)
      | none => false) = true
    rw [pyIntNat?_digits hgr.1.1 hgr.2]
    exact hx

/-- On an IPv4-shaped address, the validator returns exactly the octet
range check. -/
theorem validate_on_ipv4 {s : String} (h : ipv4Core s.toList = true) :
    validate_ip_or_hostname s =
      (splitDots s.toList).all (fun g => decide (digitsVal g ≤ 255)) := by
  by_cases h1 : s = ""
  · subst h1
    exact absurd h (by decide)
  by_cases h2 : s = "localhost"
  · subst h2
    exact absurd h (by decide)
  by_cases h3 : s = "127.0.0.1"
  · subst h3
    decide
  · have hnl : s.toList.getLast? ≠ some '\n' := by
      intro hlast
      have hm := List.mem_of_getLast?_eq_some hlast
      rcases ipv4Core_chars h _ hm with hdot | hdig
      · exact absurd hdot (by decide)
      · exact absurd hdig (by decide)
    unfold validate_ip_or_hostname
    rw [if_neg h1, if_neg (by simp [h2, h3]), pyMatchFull_of_no_newline hnl,
      if_pos h, octetCheck_of_ipv4 h]

/-- C2 as frozen is false: `"1234.1.1.1"` consists of four dot-separated
non-empty digit groups whose first group has value 1234 > 255, yet
`validate_ip_or_hostname` accepts it (the 4-digit group escapes the IPv4
regex, whose groups have at most 3 digits, and the hostname branch
accepts the string). -/
theorem C2_counterexample_fourdigit :
    fourDigitGroups "1234.1.1.1".toList = true ∧
    ((splitDots "1234.1.1.1".toList).all (fun g => decide (digitsVal g ≤ 255))) = false ∧
    validate_ip_or_hostname "1234.1.1.1" = true := by
  decide

/-- C2 (amended): for every string of four dot-separated groups of one to
three decimal digits, the validator returns true iff every group's value
is at most 255; and the spec's two IPv4 examples hold. -/
theorem C2_ipv4_octet_range :
    (∀ s : String, ipv4Core s.toList = true →
      (validate_ip_or_hostname s = true ↔
        (splitDots s.toList).all (fun g => decide (digitsVal g ≤ 255)) = true)) ∧
    validate_ip_or_hostname "192.168.1.100" = true ∧
    validate_ip_or_hostname "256.1.1.1" = false := by
  refine ⟨fun s h => ?_, by decide, by decide⟩
  rw [validate_on_ipv4 h]

/-- Witness for C2: the amended theorem applied at the concrete address
`"10.20.30.40"`. -/
theorem C2_ipv4_octet_range_witness :
    validate_ip_or_hostname "10.20.30.40" = true ↔
      (splitDots "10.20.30.40".toList).all (fun g => decide (digitsVal g ≤ 255)) = true :=
  C2_ipv4_octet_range.1 "10.20.30.40" (by decide)

/-- A claim-grammar label matches the source's label regex. -/
theorem labelOK_of_labelGrammar {g : List Char} (h : labelGrammar g = true) :
    labelOK g = true := by
  unfold labelGrammar at h
  simp only [Bool.and_eq_true, decide_eq_true_eq] at h
  obtain ⟨⟨⟨⟨hlen1, hlen63⟩, hall⟩, hhead⟩, hlast⟩ := h
  cases g with
  | nil => exact absurd hlen1 (by decide)
  | cons c rest =>
    have hcal : isAlnumCh c = true := by
      have hmid : isLabelMidCh c = true :=
        List.all_eq_true.1 hall c (List.mem_cons_self c rest)
      unfold isLabelMidCh at hmid
      rw [Bool.or_eq_true] at hmid
      rcases hmid with hok | hhy
      · exact hok
      · rw [decide_eq_true_eq] at hhy
        exact absurd hhy (by simpa using hhead)
    cases rest with
    | nil =>
      show isAlnumCh c = true
      exact hcal
    | cons r rs =>
      have hlast2 : (r :: rs).getLastD c ≠ '-' := by
        rw [List.getLastD_cons] at hlast
        exact hlast
      have hmem : (r :: rs).getLast (by exact fun h => List.noConfusion h) ∈ r :: rs :=
        List.getLast_mem _
      have hgl : (r :: rs).getLastD c = (r :: rs).getLast (fun h => List.noConfusion h) := by
        rw [List.getLastD_eq_getLast?, List.getLast?_eq_getLast _ (fun h => List.noConfusion h)]
        rfl
      have hglan : isAlnumCh ((r :: rs).getLastD 'a') = true := by
        have hga : (r :: rs).getLastD 'a' = (r :: rs).getLast (fun h => List.noConfusion h) := by
          rw [List.getLastD_eq_getLast?, List.getLast?_eq_getLast _ (fun h => List.noConfusion h)]
          rfl
        rw [hga]
        have hmm : isLabelMidCh ((r :: rs).getLast (fun h => List.noConfusion h)) = true :=
          List.all_eq_true.1 hall _ (List.mem_cons_of_mem c hmem)
        unfold isLabelMidCh at hmm
        rw [Bool.or_eq_true] at hmm
        rcases hmm with hok | hhy
        · exact hok
        · rw [decide_eq_true_eq] at hhy
          rw [← hgl] at hhy
          exact absurd hhy hlast2
      have hdl : (r :: rs).dropLast.all isLabelMidCh = true := by
        rw [List.all_eq_true]
        intro x hx
        exact List.all_eq_true.1 hall x
          (List.mem_cons_of_mem c (List.dropLast_subset (r :: rs) hx))
      have hlen : ((r :: rs).length ≤ 62) := by
        have : (c :: r :: rs).length = (r :: rs).length + 1 := rfl
        omega
      show (isAlnumCh c && decide ((r :: rs).length ≤ 62) &&
        (r :: rs).dropLast.all isLabelMidCh && isAlnumCh ((r :: rs).getLastD 'a')) = true
      rw [hcal, decide_eq_true hlen, hdl, hglan]
      rfl

/-- Every character of a claim-grammar hostname is a dot, an alphanumeric
character, or a hyphen. -/
theorem hostGrammar_chars {s : String} (h : hostGrammar s = true) :
    ∀ x ∈ s.toList, x = '.' ∨ isLabelMidCh x = true := by
  intro x hx
  rcases mem_splitDots hx with hdot | ⟨g, hg, hxg⟩
  · exact Or.inl hdot
  · right
    have hlg := List.all_eq_true.1 h g hg
    unfold labelGrammar at hlg
    simp only [Bool.and_eq_true, decide_eq_true_eq] at hlg
    exact List.all_eq_true.1 hlg.1.1.2 x hxg

/-- A claim-grammar hostname matches the source's hostname regex. -/
theorem hostnameCore_of_hostGrammar {s : String} (h : hostGrammar s = true) :
    hostnameCore s.toList = true := by
  unfold hostnameCore
  rw [Bool.or_eq_true]
  left
  rw [List.all_eq_true]
  intro g hg
  exact labelOK_of_labelGrammar (List.all_eq_true.1 h g hg)

/-- C8 as frozen is false: `"256.1.1.1"` matches the claim's hostname
grammar (labels `256`, `1`, `1`, `1` are alphanumeric), yet the validator
returns false because the IPv4 branch takes precedence and 256 exceeds
255. -/
theorem C8_counterexample_256 :
    hostGrammar "256.1.1.1" = true ∧ validate_ip_or_hostname "256.1.1.1" = false := by
  decide

/-- C8 (amended): the validator rejects the empty string and accepts
`localhost`, `127.0.0.1` and `my-device.local`; it accepts every string
matching the claim's hostname grammar that does not have the IPv4 shape
of four dot-separated groups of 1-3 digits; a grammar string that does
have that shape is accepted iff every group's value is at most 255. -/
theorem C8_hostname_validation :
    validate_ip_or_hostname "" = false ∧
    validate_ip_or_hostname "localhost" = true ∧
    validate_ip_or_hostname "127.0.0.1" = true ∧
    validate_ip_or_hostname "my-device.local" = true ∧
    (∀ s : String, hostGrammar s = true → ipv4Core s.toList = false →
      validate_ip_or_hostname s = true) ∧
    (∀ s : String, hostGrammar s = true → ipv4Core s.toList = true →
      (validate_ip_or_hostname s = true ↔
        (splitDots s.toList).all (fun g => decide (digitsVal g ≤ 255)) = true)) := by
  refine ⟨by decide, by decide, by decide, by decide, fun s hg hip => ?_,
    fun s hg hip => by rw [validate_on_ipv4 hip]⟩
  by_cases h1 : s = ""
  · subst h1
    exact absurd hg (by decide)
  by_cases h2 : s = "localhost"
  · subst h2
    decide
  by_cases h3 : s = "127.0.0.1"
  · subst h3
    decide
  · have hnl : s.toList.getLast? ≠ some '\n' := by
      intro hlast
      have hm := List.mem_of_getLast?_eq_some hlast
      rcases hostGrammar_chars hg _ hm with hdot | hmid
      · exact absurd hdot (by decide)
      · exact absurd hmid (by decide)
    unfold validate_ip_or_hostname
    rw [if_neg h1, if_neg (by simp [h2, h3]), pyMatchFull_of_no_newline hnl,
      if_neg (by rw [hip]; exact fun h => Bool.noConfusion h), pyMatchFull_of_no_newline hnl]
    exact hostnameCore_of_hostGrammar hg

/-- Witness for C8: the amended theorem applied at the concrete hostnames
`"my-host.example"` (grammar, not IPv4-shaped) and `"10.0.0.1"`
(grammar and IPv4-shaped). -/
theorem C8_hostname_validation_witness :
    validate_ip_or_hostname "my-host.example" = true ∧
    (validate_ip_or_hostname "10.0.0.1" = true ↔
      (splitDots "10.0.0.1".toList).all (fun g => decide (digitsVal g ≤ 255)) = true) :=
  ⟨C8_hostname_validation.2.2.2.2.1 "my-host.example" (by decide) (by decide),
   C8_hostname_validation.2.2.2.2.2 "10.0.0.1" (by decide) (by decide)⟩

/-- A successful `downloadLoop` result always carries a non-empty body. -/
theorem downloadLoop_ok_nonempty (net : Int → String → FetchOutcome) (icon_id : Int) :
    ∀ (exts : List String) (d : List Nat) (ext : String),
      downloadLoop net icon_id exts = .ok (d, ext) → d ≠ [] := by
  intro exts
  induction exts with
  | nil =>
    intro d ext h
    exact absurd h (by simp [downloadLoop])
  | cons e rest ih =>
    intro d ext h
    unfold downloadLoop at h
    rcases hn : net icon_id e with _ | _ | data <;> rw [hn] at h
    · exact ih d ext h
    · exact absurd h (by simp)
    · replace h : (if data = [] then downloadLoop net icon_id rest
        else Except.ok (data, e)) = Except.ok (d, ext) := h
      by_cases hd : data = []
      · rw [if_pos hd] at h
        exact ih d ext h
      · rw [if_neg hd] at h
        rw [Except.ok.injEq, Prod.mk.injEq] at h
        rw [← h.1]
        exact hd

/-- C3: `download_icon` tries `gif` then `png`, in that order; a
non-success HTTP status on an attempt is a miss and the next format is
tried; the first attempt that succeeds with a non-empty body returns those
bytes and that format immediately; a lower-level transport error on an
attempt propagates as fatal; and when both formats are exhausted the
result is the not-found error carrying the icon id. -/
theorem C3_download_format_fallback (net : Int → String → FetchOutcome) (icon_id : Int) :
    (∀ d : List Nat, net icon_id "gif" = .ok d → d ≠ [] →
      download_icon net icon_id = .ok (d, "gif")) ∧
    (∀ d : List Nat, net icon_id "gif" = .httpError → net icon_id "png" = .ok d →
      d ≠ [] → download_icon net icon_id = .ok (d, "png")) ∧
    (net icon_id "gif" = .transportError →
      download_icon net icon_id = .error .transport) ∧
    (net icon_id "gif" = .httpError → net icon_id "png" = .transportError →
      download_icon net icon_id = .error .transport) ∧
    (net icon_id "gif" = .httpError → net icon_id "png" = .httpError →
      download_icon net icon_id = .error (.notFound icon_id)) := by
  refine ⟨?_, ?_, ?_, ?_, ?_⟩
  · intro d h1 hne
    unfold download_icon downloadLoop
    rw [h1]
    show (if d = [] then downloadLoop net icon_id ["png"] else .ok (d, "gif")) = .ok (d, "gif")
    rw [if_neg hne]
  · intro d h1 h2 hne
    unfold download_icon downloadLoop
    rw [h1]
    show downloadLoop net icon_id ["png"] = .ok (d, "png")
    unfold downloadLoop
    rw [h2]
    show (if d = [] then downloadLoop net icon_id [] else .ok (d, "png")) = .ok (d, "png")
    rw [if_neg hne]
  · intro h1
    unfold download_icon downloadLoop
    rw [h1]
  · intro h1 h2
    unfold download_icon downloadLoop
    rw [h1]
    show downloadLoop net icon_id ["png"] = .error .transport
    unfold downloadLoop
    rw [h2]
  · intro h1 h2
    unfold download_icon downloadLoop
    rw [h1]
    show downloadLoop net icon_id ["png"] = .error (.notFound icon_id)
    unfold downloadLoop
    rw [h2]
    rfl

/-- Witness for C3: all five branches exercised on concrete oracles. -/
theorem C3_download_format_fallback_witness :
    download_icon netC3gif 7 = .ok ([1], "gif") ∧
    download_icon netC3png 7 = .ok ([2], "png") ∧
    download_icon netC3fail1 7 = .error .transport ∧
    download_icon netC3fail2 7 = .error .transport ∧
    download_icon netC3miss 7 = .error (.notFound 7) :=
  ⟨(C3_download_format_fallback netC3gif 7).1 [1] rfl (by decide),
   (C3_download_format_fallback netC3png 7).2.1 [2] rfl rfl (by decide),
   (C3_download_format_fallback netC3fail1 7).2.2.1 rfl,
   (C3_download_format_fallback netC3fail2 7).2.2.2.1 rfl rfl,
   (C3_download_format_fallback netC3miss 7).2.2.2.2 rfl rfl⟩

/-- C10: a fetch success never carries an empty byte string; a successful
response with empty body is treated as a miss for that format, so the
next format is tried or the not-found error is raised after the last
format. -/
theorem C10_download_nonempty (net : Int → String → FetchOutcome) (icon_id : Int) :
    (∀ (d : List Nat) (ext : String),
      download_icon net icon_id = .ok (d, ext) → d ≠ []) ∧
    (∀ d : List Nat, net icon_id "gif" = .ok [] → net icon_id "png" = .ok d →
      d ≠ [] → download_icon net icon_id = .ok (d, "png")) ∧
    (net icon_id "gif" = .ok [] → net icon_id "png" = .ok [] →
      download_icon net icon_id = .error (.notFound icon_id)) := by
  refine ⟨?_, ?_, ?_⟩
  · intro d ext h
    exact downloadLoop_ok_nonempty net icon_id ["gif", "png"] d ext h
  · intro d h1 h2 hne
    unfold download_icon downloadLoop
    rw [h1]
    show (if ([] : List Nat) = [] then downloadLoop net icon_id ["png"]
      else .ok (([] : List Nat), "gif")) = .ok (d, "png")
    rw [if_pos rfl]
    unfold downloadLoop
    rw [h2]
    show (if d = [] then downloadLoop net icon_id [] else .ok (d, "png")) = .ok (d, "png")
    rw [if_neg hne]
  · intro h1 h2
    unfold download_icon downloadLoop
    rw [h1]
    show (if ([] : List Nat) = [] then downloadLoop net icon_id ["png"]
      else .ok (([] : List Nat), "gif")) = .error (.notFound icon_id)
    rw [if_pos rfl]
    unfold downloadLoop
    rw [h2]
    show (if ([] : List Nat) = [] then downloadLoop net icon_id []
      else .ok (([] : List Nat), "png")) = .error (.notFound icon_id)
    rw [if_pos rfl]
    rfl

/-- Witness for C10: the empty-body miss and the resulting success or
not-found on concrete oracles. -/
theorem C10_download_nonempty_witness :
    download_icon netC10empty 5 = .ok ([3], "png") ∧
    download_icon netC10allEmpty 5 = .error (.notFound 5) ∧
    ([3] : List Nat) ≠ [] :=
  ⟨(C10_download_nonempty netC10empty 5).2.1 [3] rfl rfl (by decide),
   (C10_download_nonempty netC10allEmpty 5).2.2 rfl rfl,
   (C10_download_nonempty netC10empty 5).1 [3] "png"
     ((C10_download_nonempty netC10empty 5).2.1 [3] rfl rfl (by decide))⟩

/-- C4: `upload_icon_to_awtrix` is a total function (exceptions are
modelled in `UploadOutcome`, so no raise escapes), and it returns true
exactly when the device responds with HTTP status 200 or 201 — any other
status, and any network-level exception, yields false. -/
theorem C4_upload_success_iff (upl : Request → UploadOutcome)
    (device_ip icon_name : String) (icon_data : List Nat) (file_ext bhex : String) :
    upload_icon_to_awtrix upl device_ip icon_name icon_data file_ext bhex = true ↔
      (upl (buildRequest device_ip icon_name icon_data file_ext bhex) = .status 200 ∨
       upl (buildRequest device_ip icon_name icon_data file_ext bhex) = .status 201) := by
  unfold upload_icon_to_awtrix
  rcases h : upl (buildRequest device_ip icon_name icon_data file_ext bhex) with code | _
  · show (if code = 200 || code = 201 then true else false) = true ↔ _
    constructor
    · intro h2
      by_cases h200 : code = 200
      · subst h200
        exact Or.inl rfl
      by_cases h201 : code = 201
      · subst h201
        exact Or.inr rfl
      · rw [if_neg (by simp [h200, h201])] at h2
        exact absurd h2 (by decide)
    · intro h2
      rcases h2 with h2 | h2 <;> rw [UploadOutcome.status.injEq] at h2 <;> subst h2 <;> rfl
  · show false = true ↔ _
    constructor
    · intro h2
      exact absurd h2 (by decide)
    · intro h2
      rcases h2 with h2 | h2 <;> exact UploadOutcome.noConfusion h2

/-- Regrouping of the Content-Disposition header string. -/
theorem dispositionString_eq (safe ext : String) :
    "Content-Disposition: form-data; name=\"" ++ "data" ++ "\"; filename=\"" ++
      ("/ICONS/" ++ safe ++ "." ++ ext) ++ "\"" =
    "Content-Disposition: form-data; name=\"data\"; filename=\"/ICONS/" ++
      safe ++ "." ++ ext ++ "\"" := by
  simp only [← String.append_assoc]
  rfl

/-- Regrouping of the Content-Type header string. -/
theorem contentTypeString_eq (ext : String) :
    "Content-Type: " ++ ("image/" ++ ext) = "Content-Type: image/" ++ ext := by
  rw [← String.append_assoc]
  rfl

/-- The joined multipart body of the source equals the spec's single-part
layout. -/
theorem bodyBytes_eq_multipart (boundary safe ext : String) (data : List Nat) :
    bodyBytes boundary safe ext data =
      multipartSingleFilePart boundary "data" ("/ICONS/" ++ safe ++ "." ++ ext)
        ("image/" ++ ext) data := by
  unfold bodyBytes bodyPieces multipartSingleFilePart
  rw [dispositionString_eq, contentTypeString_eq]
  simp [List.intercalate, List.intersperse, crlf, List.append_assoc]

/-- C5: for every device address, icon name, byte content, format and
boundary token, the request built by the uploader is a POST to
`http://<device>/edit`, with the spec's multipart/form-data content type,
whose body is exactly one part with field name `data`, filename
`/ICONS/<sanitized name>.<format>`, part content type `image/<format>`
and the raw input bytes, and whose Content-Length equals the byte length
of the assembled body. -/
theorem C5_upload_request_shape (device_ip icon_name : String) (icon_data : List Nat)
    (file_ext bhex : String) :
    (buildRequest device_ip icon_name icon_data file_ext bhex).method = "POST" ∧
    (buildRequest device_ip icon_name icon_data file_ext bhex).url =
      "http://" ++ device_ip ++ "/edit" ∧
    (buildRequest device_ip icon_name icon_data file_ext bhex).contentType =
      "multipart/form-data; boundary=" ++ mkBoundary bhex ∧
    (buildRequest device_ip icon_name icon_data file_ext bhex).body =
      multipartSingleFilePart (mkBoundary bhex) "data"
        ("/ICONS/" ++ sanitize_icon_name icon_name ++ "." ++ file_ext)
        ("image/" ++ file_ext) icon_data ∧
    (buildRequest device_ip icon_name icon_data file_ext bhex).contentLength =
      (buildRequest device_ip icon_name icon_data file_ext bhex).body.length := by
  refine ⟨rfl, rfl, rfl, ?_, rfl⟩
  show bodyBytes (mkBoundary bhex) (sanitize_icon_name icon_name) file_ext icon_data =
    multipartSingleFilePart (mkBoundary bhex) "data"
      ("/ICONS/" ++ sanitize_icon_name icon_name ++ "." ++ file_ext)
      ("image/" ++ file_ext) icon_data
  exact bodyBytes_eq_multipart (mkBoundary bhex) (sanitize_icon_name icon_name)
    file_ext icon_data

/-- C6: the pipeline maps over the requests in input order — the result
list has one entry per request, the k-th result is the outcome of
processing the k-th request, and one request's failure never aborts the
rest; in the concrete 3-request run where the second request fails to
fetch, the results are `[true, false, true]` in input order and the tally
is 2 of 3. -/
theorem C6_pipeline_order_and_isolation :
    (∀ (net : Int → String → FetchOutcome) (upl : Request → UploadOutcome)
      (device_ip bhex : String) (reqs : List (String × Int)),
      (processAll net upl device_ip bhex reqs).length = reqs.length ∧
      (∀ k : Nat, (processAll net upl device_ip bhex reqs)[k]? =
        Option.map (fun r => process_icon net upl device_ip bhex r.1 r.2) reqs[k]?)) ∧
    processAll netC6 uplC6 "192.168.1.100" "b" [("a", 1), ("b", 2), ("c", 3)] =
      [true, false, true] ∧
    successCount (processAll netC6 uplC6 "192.168.1.100" "b"
      [("a", 1), ("b", 2), ("c", 3)]) = 2 ∧
    ([("a", 1), ("b", 2), ("c", 3)] : List (String × Int)).length = 3 := by
  refine ⟨fun net upl dev bhex reqs => ⟨?_, fun k => ?_⟩, ?_, ?_, rfl⟩
  · exact List.length_map reqs _
  · exact List.getElem?_map _ reqs k
  · rfl
  · rfl

/-- The success tally equals the number of results exactly when every
result is true. -/
theorem successCount_eq_length_iff (l : List Bool) :
    successCount l = l.length ↔ l.all (fun b => b) = true := by
  unfold successCount
  induction l with
  | nil => simp
  | cons b t ih =>
    cases b
    · have hle := List.length_filter_le (fun b => b) t
      simp only [List.filter_cons, List.all_cons]
      rw [if_neg (by decide)]
      simp only [List.length_cons, Bool.false_and]
      constructor
      · intro h
        exfalso
        omega
      · intro h
        exact Bool.noConfusion h
    · simp only [List.filter_cons, List.all_cons]
      rw [if_pos (by decide)]
      simp only [List.length_cons, Bool.true_and]
      constructor
      · intro h
        exact ih.1 (by omega)
      · intro h
        rw [ih.2 h]

/-- The result list of the per-icon loop is empty only when no icons were
requested. -/
theorem processAll_eq_nil_iff (net : Int → String → FetchOutcome)
    (upl : Request → UploadOutcome) (device_ip bhex : String)
    (reqs : List (String × Int)) :
    processAll net upl device_ip bhex reqs = [] ↔ reqs = [] := by
  unfold processAll
  exact List.map_eq_nil_iff

/-- C7: with the list-only flag off, the exit code is 0 exactly when at
least one icon was requested and every per-icon result is a success; and
every fatal pre-flight error — no device address, an invalid device
address, an invalid (unparsable or non-positive) icon id, or zero icons
requested — exits 1 with no per-icon attempt made. -/
theorem C7_exit_code (args : Args) (prompt : String) (parse : String → Option Int)
    (net : Int → String → FetchOutcome) (upl : Request → UploadOutcome) (bhex : String)
    (hld : args.list_default = false) :
    ((mainRun args prompt parse net upl bhex).1 = 0 ↔
      ((mainRun args prompt parse net upl bhex).2 ≠ [] ∧
       (mainRun args prompt parse net upl bhex).2.all (fun b => b) = true)) ∧
    (resolveDevice args prompt = none →
      mainRun args prompt parse net upl bhex = (1, [])) ∧
    (∀ d, resolveDevice args prompt = some d → validate_ip_or_hostname d = false →
      mainRun args prompt parse net upl bhex = (1, [])) ∧
    (buildIcons parse args.icon (if args.default_icons then DEFAULT_ICONS else []) = none →
      mainRun args prompt parse net upl bhex = (1, [])) ∧
    (buildIcons parse args.icon (if args.default_icons then DEFAULT_ICONS else []) = some [] →
      mainRun args prompt parse net upl bhex = (1, [])) := by
  have hmain0 : mainRun args prompt parse net upl bhex =
      (match resolveDevice args prompt with
       | none => (1, [])
       | some device_ip => mainWithDevice device_ip args parse net upl bhex) := by
    unfold mainRun
    rw [if_neg (by simp [hld])]
  rcases hdev : resolveDevice args prompt with _ | d
  · rw [hdev] at hmain0
    replace hmain0 : mainRun args prompt parse net upl bhex = (1, []) := hmain0
    refine ⟨?_, fun _ => hmain0, fun d2 hd2 _ => Option.noConfusion hd2,
      fun _ => hmain0, fun _ => hmain0⟩
    rw [hmain0]
    simp
  · rw [hdev] at hmain0
    replace hmain0 : mainRun args prompt parse net upl bhex =
      mainWithDevice d args parse net upl bhex := hmain0
    by_cases hv : validate_ip_or_hostname d = false
    · have hm2 : mainRun args prompt parse net upl bhex = (1, []) := by
        rw [hmain0]
        unfold mainWithDevice
        rw [if_pos hv]
      refine ⟨?_, fun hc => Option.noConfusion hc, fun d2 hd2 _ => hm2,
        fun _ => hm2, fun _ => hm2⟩
      rw [hm2]
      simp
    · have hmain1 : mainRun args prompt parse net upl bhex =
          (match buildIcons parse args.icon
            (if args.default_icons then DEFAULT_ICONS else []) with
           | none => (1, [])
           | some icons =>
             if icons = [] then (1, []) else mainCore d icons net upl bhex) := by
        rw [hmain0]
        unfold mainWithDevice
        rw [if_neg hv]
      rcases hbi : buildIcons parse args.icon
        (if args.default_icons then DEFAULT_ICONS else []) with _ | icons
      · rw [hbi] at hmain1
        replace hmain1 : mainRun args prompt parse net upl bhex = (1, []) := hmain1
        refine ⟨?_, fun hc => Option.noConfusion hc,
          fun d2 hd2 hv2 => ?_, fun _ => hmain1, fun hc => Option.noConfusion hc⟩
        · rw [hmain1]
          simp
        · rw [Option.some_inj] at hd2
          exact absurd (hd2 ▸ hv2) hv
      · rw [hbi] at hmain1
        replace hmain1 : mainRun args prompt parse net upl bhex =
          (if icons = [] then (1, []) else mainCore d icons net upl bhex) := hmain1
        by_cases hie : icons = []
        · rw [if_pos hie] at hmain1
          refine ⟨?_, fun hc => Option.noConfusion hc, fun d2 hd2 hv2 => ?_,
            fun hc => Option.noConfusion hc, fun _ => hmain1⟩
          · rw [hmain1]
            simp
          · rw [Option.some_inj] at hd2
            exact absurd (hd2 ▸ hv2) hv
        · rw [if_neg hie] at hmain1
          have hlen : (processAll net upl d bhex icons).length = icons.length :=
            List.length_map icons _
          refine ⟨?_, fun hc => Option.noConfusion hc, fun d2 hd2 hv2 => ?_,
            fun hc => Option.noConfusion hc,
            fun hc => absurd (Option.some_inj.1 hc) hie⟩
          · rw [hmain1]
            unfold mainCore
            by_cases hsc : successCount (processAll net upl d bhex icons) = icons.length
            · rw [if_pos hsc]
              constructor
              · intro _
                refine ⟨?_, ?_⟩
                · rw [Ne, processAll_eq_nil_iff]
                  exact hie
                · rw [← successCount_eq_length_iff, hlen]
                  exact hsc
              · intro _
                rfl
            · rw [if_neg hsc]
              constructor
              · intro h
                exact absurd (show (1 : Nat) = 0 from h) (by decide)
              · intro h
                have h2 := (successCount_eq_length_iff _).2 h.2
                rw [hlen] at h2
                exact absurd h2 hsc
          · rw [Option.some_inj] at hd2
            exact absurd (hd2 ▸ hv2) hv

/-- Witness for C7: the exit-code equivalence at a concrete full-success
run. -/
theorem C7_exit_code_witness :
    (mainRun argsC7 "" parseC7 netC7 uplC7 "b").1 = 0 ↔
      ((mainRun argsC7 "" parseC7 netC7 uplC7 "b").2 ≠ [] ∧
       (mainRun argsC7 "" parseC7 netC7 uplC7 "b").2.all (fun b => b) = true) :=
  (C7_exit_code argsC7 "" parseC7 netC7 uplC7 "b" rfl).1
